import Mathlib

/-!
Verification of the BlueBus bootloader core: circular byte transport
(uart.c), packet codec and flash programming engine (protocol.c).

The C sources are shallowly embedded: machine integers become Nat with
explicit reductions modulo 256 (uint8_t) or 2 ^ 32 (uint32_t) where the
source performs machine arithmetic, the UART receive queue becomes an
explicit state record that every operation threads, and the memory-mapped
flash side effects become an explicit trace of operations
(page erases and dual-word writes) that can be replayed against a model
of the flash address space.

The repository's headers (protocol.h, uart.h, bootloader.h) are not part
of the given sources; the constants they define are modelled from the
specification and marked as such below.
-/

/-- Modelled from the spec: UART_RX_QUEUE_SIZE from uart.h is missing; the
spec describes a fixed-capacity ring buffer with capacity C, device
specific, e.g. 255+1, and an occupancy invariant 0 <= size <= C+1. -/
def UART_RX_QUEUE_SIZE : Nat := 256

/-- Modelled from the spec: PROTOCOL_CONTROL_PACKET_SIZE from protocol.h is
missing; the spec fixes the control overhead at 2 (one command byte plus
one length byte), with payload size = length - control_overhead. -/
def PROTOCOL_CONTROL_PACKET_SIZE : Nat := 2

/-- Modelled from the spec: PROTOCOL_DATA_INDEX_BEGIN from protocol.h is
missing; the spec states length = data_size + control_overhead with
control_overhead = 2, and the payload begins at frame offset 2. -/
def PROTOCOL_DATA_INDEX_BEGIN : Nat := 2

/-- Modelled from the spec: packet status INCOMPLETE (not enough bytes
buffered yet). The numeric value of the missing header constant is
irrelevant to every claim; the three statuses are distinct. -/
def PROTOCOL_PACKET_STATUS_INCOMPLETE : Nat := 0

/-- Modelled from the spec: packet status OK (checksum validation passed). -/
def PROTOCOL_PACKET_STATUS_OK : Nat := 1

/-- Modelled from the spec: packet status BAD (checksum validation failed). -/
def PROTOCOL_PACKET_STATUS_BAD : Nat := 2

/-- Modelled from the spec: opcode WRITE_DATA. The spec declares the opcodes
symbolic with link-time numeric values; representative distinct byte values
are chosen. -/
def PROTOCOL_CMD_WRITE_DATA : Nat := 0x04

/-- Modelled from the spec: opcode WRITE_DATA_RESPONSE_OK. -/
def PROTOCOL_CMD_WRITE_DATA_RESPONSE_OK : Nat := 0x05

/-- Modelled from the spec: opcode WRITE_DATA_RESPONSE_ERR. -/
def PROTOCOL_CMD_WRITE_DATA_RESPONSE_ERR : Nat := 0x06

/-- Modelled from the spec: opcode WRITE_SN. -/
def PROTOCOL_CMD_WRITE_SN : Nat := 0x0A

/-- Modelled from the spec: opcode WRITE_SN_RESPONSE_OK. -/
def PROTOCOL_CMD_WRITE_SN_RESPONSE_OK : Nat := 0x0B

/-- Modelled from the spec: opcode WRITE_SN_RESPONSE_ERR. -/
def PROTOCOL_CMD_WRITE_SN_RESPONSE_ERR : Nat := 0x0C

/-- Modelled from the spec: BOOTLOADER_BOOTLOADER_START from bootloader.h is
missing; the spec only constrains the partition
RESET_VECTOR (address 0) < BOOTLOADER_REGION < APPLICATION_REGION and, in
the erase-all contract, that whole pages can be skipped exactly when they
overlap the bootloader region, which forces the region bounds to be
page-aligned. A representative page-aligned value is chosen. -/
def BOOTLOADER_BOOTLOADER_START : Nat := 0x1800

/-- Modelled from the spec: BOOTLOADER_APPLICATION_START from bootloader.h
is missing; page-aligned, above BOOTLOADER_BOOTLOADER_START. -/
def BOOTLOADER_APPLICATION_START : Nat := 0x2800

/-- Modelled from the spec: BOOTLOADER_APPLICATION_END from bootloader.h is
missing; the end of the program-memory span swept by erase-all. -/
def BOOTLOADER_APPLICATION_END : Nat := 0xABFE

/-- Modelled from the spec: the flash row constant from the device headers
is missing. The erase loop of protocol.c steps by _FLASH_ROW * 16 addresses
per page; 64 gives the 1024-unit page blocks named in the source comment. -/
def FLASH_ROW : Nat := 64

/-- Size in address units of one erase page: the step _FLASH_ROW * 16 of the
erase loop in ProtocolFlashErase (protocol.c line 46). -/
def FLASH_PAGE_SIZE : Nat := FLASH_ROW * 16

/-- Modelled from the spec: the value of a flash word after a page erase
(blank state). Used only to state that the reset vector is never left
erased. -/
def FLASH_ERASED_WORD : Nat := 0xFFFFFF

/-- The receive side of UART_t (uart.h is missing, but every field used by
uart.c and protocol.c is determined by the source: rxQueue, the read and
write cursors and rxQueueSize). The transmit path and the hardware
registers have no queue state; transmitted bytes are returned as lists by
the functions that send. -/
structure UART where
  rxQueue : List Nat
  rxQueueReadCursor : Nat
  rxQueueWriteCursor : Nat
  rxQueueSize : Nat
deriving Repr, DecidableEq

/-- A freshly initialised transport: zeroed storage and cursors, matching
UARTResetRxQueue (uart.c lines 152-157) applied to blank storage. -/
def uartInit : UART :=
  { rxQueue := List.replicate UART_RX_QUEUE_SIZE 0
    rxQueueReadCursor := 0
    rxQueueWriteCursor := 0
    rxQueueSize := 0 }

/-- UARTGetNextByte (uart.c lines 73-86): return the byte at the read
cursor, zero that slot, advance the read cursor with wraparound, decrement
the occupancy with a floor at zero. -/
def UARTGetNextByte (u : UART) : Nat × UART :=
  let data := u.rxQueue.getD u.rxQueueReadCursor 0
  let q := u.rxQueue.set u.rxQueueReadCursor 0
  let rc0 := u.rxQueueReadCursor + 1
  let rc := if rc0 ≥ UART_RX_QUEUE_SIZE then 0 else rc0
  let sz := if u.rxQueueSize > 0 then u.rxQueueSize - 1 else u.rxQueueSize
  (data, { u with rxQueue := q, rxQueueReadCursor := rc, rxQueueSize := sz })

/-- The cursor walk of UARTGetOffsetByte (uart.c lines 100-107): advance
offset times, wrapping at UART_RX_QUEUE_SIZE. -/
def UARTOffsetCursor : Nat → Nat → Nat
  | cursor, 0 => cursor
  | cursor, offset + 1 =>
    let c := cursor + 1
    UARTOffsetCursor (if c ≥ UART_RX_QUEUE_SIZE then 0 else c) offset

/-- UARTGetOffsetByte (uart.c lines 98-109): read, without mutating any
state, the byte offset positions ahead of the read cursor. -/
def UARTGetOffsetByte (u : UART) (offset : Nat) : Nat :=
  u.rxQueue.getD (UARTOffsetCursor u.rxQueueReadCursor offset) 0

/-- One accepted byte of UARTReadData (uart.c lines 121-141): the loop body
for a byte read from the hardware receive register with no error flag set.
If the occupancy has not reached UART_RX_QUEUE_SIZE + 1 the byte is stored
(the write cursor is wrapped to 0 before use when it equals the queue
size), the write cursor advances and the occupancy grows; otherwise the
byte is silently dropped. The hardware status registers and the activity
timestamp are outside the model. -/
def UARTReadDataByte (u : UART) (b : Nat) : UART :=
  if u.rxQueueSize ≠ UART_RX_QUEUE_SIZE + 1 then
    let wc := if u.rxQueueWriteCursor = UART_RX_QUEUE_SIZE then 0
              else u.rxQueueWriteCursor
    { u with rxQueue := u.rxQueue.set wc (b % 256)
             rxQueueWriteCursor := wc + 1
             rxQueueSize := u.rxQueueSize + 1 }
  else u

/-- Push a whole list of received bytes, in order, through the accepting
loop of UARTReadData. -/
def uartPushList (u : UART) (bs : List Nat) : UART :=
  bs.foldl UARTReadDataByte u

/-- Pop n bytes with UARTGetNextByte, collecting them in order. -/
def uartPopList : UART → Nat → List Nat × UART
  | u, 0 => ([], u)
  | u, n + 1 =>
    let (b, u1) := UARTGetNextByte u
    let (rest, u2) := uartPopList u1 n
    (b :: rest, u2)

/-- One producer or consumer action on the transport: some b is an accepted
receive of byte b (UARTReadData), none is a consume (UARTGetNextByte with
the byte discarded). -/
def uartStep (u : UART) : Option Nat → UART
  | some b => UARTReadDataByte u b
  | none => (UARTGetNextByte u).2

/-- Replay an arbitrary interleaving of pushes and pops. -/
def uartApplyOps (u : UART) (ops : List (Option Nat)) : UART :=
  ops.foldl uartStep u

/-- ProtocolPacket_t: command, payload size, payload bytes and validation
status of one frame. -/
structure ProtocolPacket where
  status : Nat
  command : Nat
  dataSize : Nat
  data : List Nat
deriving Repr, DecidableEq

/-- ProtocolSendPacket (protocol.c lines 166-197), as the list of bytes
handed to UARTSendData. A zero dataSize is replaced by a single zero
payload byte; length = dataSize + PROTOCOL_DATA_INDEX_BEGIN (uint8); the
frame buffer holds exactly length bytes: command, length, then the loop
at lines 190-193 copies payload byte i-2 into slot i for i in [2, length)
while folding it into the checksum, and finally line 195 stores the
checksum into slot length - 1 (the slot the loop filled last).
The C loop reads exactly dataSize payload bytes; out-of-range reads of the
caller's buffer cannot occur for dataSize <= data.length, which getD
mirrors with a zero default. -/
def ProtocolSendPacket (command : Nat) (data : List Nat) (dataSize0 : Nat) :
    List Nat :=
  let dataSize := if dataSize0 % 256 = 0 then 1 else dataSize0 % 256
  let length := (dataSize + PROTOCOL_DATA_INDEX_BEGIN) % 256
  if dataSize0 % 256 = 0 then
    let crc := (command % 256) ^^^ length
    [command % 256, length, crc]
  else
    let body := (List.range (length - 2)).map (fun i => data.getD i 0 % 256)
    let crc := body.foldl (fun c b => c ^^^ b) ((command % 256) ^^^ length)
    [command % 256, length] ++ body.dropLast ++ [crc]

/-- ProtocolValidatePacket (protocol.c lines 230-245): XOR the command, the
recomputed length byte (dataSize + PROTOCOL_CONTROL_PACKET_SIZE as uint8),
every payload byte and the received checksum; zero means OK, anything else
BAD. -/
def ProtocolValidatePacket (packet : ProtocolPacket) (validation : Nat) :
    Nat :=
  let chk0 := (packet.command % 256) ^^^
    ((packet.dataSize + PROTOCOL_CONTROL_PACKET_SIZE) % 256)
  let chk1 := (List.range packet.dataSize).foldl
    (fun c i => c ^^^ (packet.data.getD i 0 % 256)) chk0
  let chk := chk1 ^^^ (validation % 256)
  if chk = 0 then PROTOCOL_PACKET_STATUS_OK else PROTOCOL_PACKET_STATUS_BAD

/-- The payload-consuming loop of ProtocolProcessPacket (protocol.c lines
139-145): pop one byte per payload slot while the queue is non-empty,
otherwise pad with zero without touching the queue. -/
def ProtocolReadDataLoop : UART → Nat → List Nat × UART
  | u, 0 => ([], u)
  | u, n + 1 =>
    let (b, u1) := if u.rxQueueSize > 0 then UARTGetNextByte u else (0, u)
    let (rest, u2) := ProtocolReadDataLoop u1 n
    (b :: rest, u2)

/-- The packet returned on the INCOMPLETE paths; the C struct leaves every
field but status unset, modelled as zeros. -/
def incompletePacket : ProtocolPacket :=
  { status := PROTOCOL_PACKET_STATUS_INCOMPLETE
    command := 0, dataSize := 0, data := [] }

/-- ProtocolProcessPacket (protocol.c lines 130-151): with fewer than 2
buffered bytes, or when the occupancy differs from the peeked length byte,
return INCOMPLETE without touching the transport; otherwise consume the
command byte, the length byte (payload size = length -
PROTOCOL_CONTROL_PACKET_SIZE as uint8), the payload and one checksum byte,
and validate. -/
def ProtocolProcessPacket (u : UART) : ProtocolPacket × UART :=
  if 2 ≤ u.rxQueueSize then
    if u.rxQueueSize = UARTGetOffsetByte u 1 % 256 then
      let (cmd, u1) := UARTGetNextByte u
      let (len, u2) := UARTGetNextByte u1
      let dataSize := (len % 256 + 256 - PROTOCOL_CONTROL_PACKET_SIZE) % 256
      let (dataBytes, u3) := ProtocolReadDataLoop u2 dataSize
      let (validation, u4) := UARTGetNextByte u3
      let packet : ProtocolPacket :=
        { status := PROTOCOL_PACKET_STATUS_INCOMPLETE
          command := cmd, dataSize := dataSize, data := dataBytes }
      ({ packet with status := ProtocolValidatePacket packet validation }, u4)
    else (incompletePacket, u)
  else (incompletePacket, u)

/-- Encode a frame into an empty transport and decode it back: the
round-trip pipeline of the framing claim. -/
def protocolRoundTrip (command : Nat) (data : List Nat) :
    ProtocolPacket × UART :=
  ProtocolProcessPacket
    (uartPushList uartInit (ProtocolSendPacket command data data.length))

/-- One flash side effect: a page erase (FlashErasePage) or a dual-word
write (FlashWriteDWORDAddress) at an address, carrying the two 24-bit
words. -/
inductive FlashOp where
  | erasePage (address : Nat)
  | writeDW (address : Nat) (data : Nat) (data2 : Nat)
deriving Repr, DecidableEq

/-- The address an operation targets: the page start of an erase or the
destination of a dual-word write. -/
def flashOpAddress : FlashOp → Nat
  | FlashOp.erasePage p => p
  | FlashOp.writeDW p _ _ => p

/-- Whether an operation is a page erase. -/
def flashOpIsErase : FlashOp → Bool
  | FlashOp.erasePage _ => true
  | FlashOp.writeDW _ _ _ => false

/-- Modelled from the spec: the memory semantics of the hardware primitives
FlashErasePage and FlashWriteDWORDAddress, which are not in the given
sources. A page erase blanks one FLASH_PAGE_SIZE block; a dual-word write
commits two 24-bit words, at the given address and at address + 2 (the
engine advances the address by 4 per dual-word, 2 per single word). -/
def applyFlashOp (m : Nat → Nat) : FlashOp → (Nat → Nat)
  | FlashOp.erasePage p =>
    fun a => if p ≤ a ∧ a < p + FLASH_PAGE_SIZE then FLASH_ERASED_WORD else m a
  | FlashOp.writeDW p d d2 =>
    fun a => if a = p then d else if a = p + 2 then d2 else m a

/-- Replay a flash trace against a memory model. -/
def applyFlashTrace (m : Nat → Nat) (ops : List FlashOp) : Nat → Nat :=
  ops.foldl applyFlashOp m

/-- The reset-vector instruction rewritten by ProtocolFlashErase
(protocol.c line 44): 0x40000 + BOOTLOADER_BOOTLOADER_START. -/
def resetInstruction : Nat := 0x40000 + BOOTLOADER_BOOTLOADER_START

/-- The page sweep of ProtocolFlashErase (protocol.c lines 47-55): while
address <= BOOTLOADER_APPLICATION_END, erase the page unless its start
address falls inside [BOOTLOADER_BOOTLOADER_START,
BOOTLOADER_APPLICATION_START), then advance by one page. The fuel bounds
the iteration count; 64 pages cover the modelled program-memory span. -/
def ProtocolFlashEraseLoop : Nat → Nat → List FlashOp
  | 0, _ => []
  | fuel + 1, address =>
    if address ≤ BOOTLOADER_APPLICATION_END then
      (if address < BOOTLOADER_BOOTLOADER_START ∨
          BOOTLOADER_APPLICATION_START ≤ address then
        [FlashOp.erasePage address]
      else []) ++
      ProtocolFlashEraseLoop fuel ((address + FLASH_PAGE_SIZE) % 2 ^ 32)
    else []

/-- ProtocolFlashErase (protocol.c lines 39-57), as its flash trace: erase
the first page, rewrite the reset vector at address 0, then sweep the
remaining pages starting one page in, skipping those that start inside the
bootloader region. -/
def ProtocolFlashErase : List FlashOp :=
  [FlashOp.erasePage 0, FlashOp.writeDW 0 resetInstruction 0] ++
  ProtocolFlashEraseLoop 64 FLASH_PAGE_SIZE

/-- The loop state of ProtocolFlashWrite: the uint32 destination address,
the uint8 payload cursor and the last FlashWriteDWORDAddress result. -/
structure FlashWriteState where
  address : Nat
  index : Nat
  flashRes : Nat
deriving Repr, DecidableEq

/-- One iteration of the stride loop of ProtocolFlashWrite (protocol.c
lines 84-110), given the payload bytes and an oracle fw for the hardware
result of FlashWriteDWORDAddress. A destination inside
[BOOTLOADER_BOOTLOADER_START, BOOTLOADER_APPLICATION_START) or below 4 is
skipped: the address advances by 2 and the cursor by 3 with no flash
operation and no payload read. Otherwise six payload bytes from the cursor
are packed into two zero-padded 24-bit words and written as one dual-word,
the address advances by 4 and the cursor by 6. Besides the new state, the
emitted flash operations and the payload indices read are returned. -/
def ProtocolFlashWriteStep (data : List Nat)
    (fw : Nat → Nat → Nat → Nat) (s : FlashWriteState) :
    FlashWriteState × List FlashOp × List Nat :=
  if (BOOTLOADER_BOOTLOADER_START ≤ s.address ∧
      s.address < BOOTLOADER_APPLICATION_START) ∨ s.address < 4 then
    ({ address := (s.address + 2) % 2 ^ 32
       index := (s.index + 3) % 256
       flashRes := s.flashRes }, [], [])
  else
    let d := (data.getD s.index 0 % 256) * 65536 +
      (data.getD (s.index + 1) 0 % 256) * 256 +
      (data.getD (s.index + 2) 0 % 256)
    let d2 := (data.getD (s.index + 3) 0 % 256) * 65536 +
      (data.getD (s.index + 4) 0 % 256) * 256 +
      (data.getD (s.index + 5) 0 % 256)
    ({ address := (s.address + 4) % 2 ^ 32
       index := (s.index + 6) % 256
       flashRes := fw s.address d d2 },
     [FlashOp.writeDW s.address d d2],
     [s.index, s.index + 1, s.index + 2, s.index + 3, s.index + 4,
      s.index + 5])

/-- The stride loop of ProtocolFlashWrite (protocol.c line 83): iterate
while index < dataSize and flashRes = 1. The fuel bounds the iteration
count; for the frames the protocol admits (payload below 251 bytes, uint8
cursor never wrapping) the loop runs at most 84 strides, so any fuel of at
least 256 is not the binding constraint. -/
def ProtocolFlashWriteLoop (data : List Nat) (dataSize : Nat)
    (fw : Nat → Nat → Nat → Nat) :
    Nat → FlashWriteState → FlashWriteState × List FlashOp × List Nat
  | 0, s => (s, [], [])
  | fuel + 1, s =>
    if s.index < dataSize ∧ s.flashRes = 1 then
      let r := ProtocolFlashWriteStep data fw s
      let r2 := ProtocolFlashWriteLoop data dataSize fw fuel r.1
      (r2.1, r.2.1 ++ r2.2.1, r.2.2 ++ r2.2.2)
    else (s, [], [])

/-- The observable outcome of one ProtocolFlashWrite call: the flash trace
(erase plus stride writes), the payload indices read by the stride loop,
the response frame transmitted, and the final loop state. -/
structure FlashWriteResult where
  ops : List FlashOp
  reads : List Nat
  response : List Nat
  final : FlashWriteState
deriving Repr, DecidableEq

/-- ProtocolFlashWrite (protocol.c lines 69-117): decode the 24-bit
big-endian destination from the first three payload bytes, run erase-all
when it is zero, drive the stride loop from cursor 3 with flashRes 1, and
answer WRITE_DATA_RESPONSE_OK or WRITE_DATA_RESPONSE_ERR depending on the
last hardware write result. -/
def ProtocolFlashWrite (fw : Nat → Nat → Nat → Nat)
    (packet : ProtocolPacket) : FlashWriteResult :=
  let address := (packet.data.getD 0 0 % 256) * 65536 +
    (packet.data.getD 1 0 % 256) * 256 + (packet.data.getD 2 0 % 256)
  let eraseOps := if address = 0 then ProtocolFlashErase else []
  let r := ProtocolFlashWriteLoop packet.data packet.dataSize
    fw 1024 { address := address, index := 3, flashRes := 1 }
  let response := if r.1.flashRes = 1 then
      ProtocolSendPacket PROTOCOL_CMD_WRITE_DATA_RESPONSE_OK [] 0
    else
      ProtocolSendPacket PROTOCOL_CMD_WRITE_DATA_RESPONSE_ERR [] 0
  { ops := eraseOps ++ r.2.1, reads := r.2.2, response := response,
    final := r.1 }

/-- A hardware oracle on which every dual-word write succeeds. -/
def flashOK : Nat → Nat → Nat → Nat := fun _ _ _ => 1

/-- The two byte-wide EEPROM serial-number cells (CONFIG_SN_MSB,
CONFIG_SN_LSB). -/
structure EEPROM where
  sn_msb : Nat
  sn_lsb : Nat
deriving Repr, DecidableEq

/-- The 16-bit serial number read by ProtocolWriteSerialNumber (protocol.c
lines 259-262): (EEPROMReadByte(CONFIG_SN_MSB) << 8) |
(EEPROMReadByte(CONFIG_SN_LSB) & 0xFF); byte reads reduce the cells
modulo 256. -/
def EEPROMSerial (e : EEPROM) : Nat :=
  ((e.sn_msb % 256) <<< 8) ||| ((e.sn_lsb % 256) &&& 0xFF)

/-- ProtocolWriteSerialNumber (protocol.c lines 257-270): when the stored
serial number is zero, write the first two payload bytes to the cells and
answer WRITE_SN_RESPONSE_OK; otherwise leave the cells alone and answer
WRITE_SN_RESPONSE_ERR. The result is the new EEPROM state and the
response frame. -/
def ProtocolWriteSerialNumber (e : EEPROM) (packet : ProtocolPacket) :
    EEPROM × List Nat :=
  if EEPROMSerial e = 0 then
    ({ sn_msb := packet.data.getD 0 0 % 256
       sn_lsb := packet.data.getD 1 0 % 256 },
     ProtocolSendPacket PROTOCOL_CMD_WRITE_SN_RESPONSE_OK [] 0)
  else
    (e, ProtocolSendPacket PROTOCOL_CMD_WRITE_SN_RESPONSE_ERR [] 0)

/-- The WRITE_DATA packet of the end-to-end scenario: address bytes
00 00 00 followed by the six data bytes AA BB CC DD EE FF. -/
def scenarioPacket : ProtocolPacket :=
  { status := PROTOCOL_PACKET_STATUS_OK
    command := PROTOCOL_CMD_WRITE_DATA
    dataSize := 9
    data := [0x00, 0x00, 0x00, 0xAA, 0xBB, 0xCC, 0xDD, 0xEE, 0xFF] }

/-- A WRITE_SN packet carrying the payload bytes 00 00. -/
def snPacketZero : ProtocolPacket :=
  { status := PROTOCOL_PACKET_STATUS_OK
    command := PROTOCOL_CMD_WRITE_SN
    dataSize := 2
    data := [0x00, 0x00] }

/-- A WRITE_SN packet carrying the payload bytes 01 02. -/
def snPacketOneTwo : ProtocolPacket :=
  { status := PROTOCOL_PACKET_STATUS_OK
    command := PROTOCOL_CMD_WRITE_SN
    dataSize := 2
    data := [0x01, 0x02] }

/-- A WRITE_SN packet carrying the payload bytes 03 04. -/
def snPacketThreeFour : ProtocolPacket :=
  { status := PROTOCOL_PACKET_STATUS_OK
    command := PROTOCOL_CMD_WRITE_SN
    dataSize := 2
    data := [0x03, 0x04] }

/-- A WRITE_SN packet carrying the payload bytes 05 06. -/
def snPacketFiveSix : ProtocolPacket :=
  { status := PROTOCOL_PACKET_STATUS_OK
    command := PROTOCOL_CMD_WRITE_SN
    dataSize := 2
    data := [0x05, 0x06] }

/-- A WRITE_DATA packet with destination 0x10 and a 6-byte write stride
whose payload holds only one byte past the address: the stride loop reads
past dataSize on it. -/
def shortWritePacket : ProtocolPacket :=
  { status := PROTOCOL_PACKET_STATUS_OK
    command := PROTOCOL_CMD_WRITE_DATA
    dataSize := 4
    data := [0x00, 0x00, 0x10, 0xAA] }

/-- A WRITE_DATA packet with destination 0x10 and six data bytes: one full
write stride at an unprotected address. -/
def fullWritePacket : ProtocolPacket :=
  { status := PROTOCOL_PACKET_STATUS_OK
    command := PROTOCOL_CMD_WRITE_DATA
    dataSize := 9
    data := [0x00, 0x00, 0x10, 0x01, 0x02, 0x03, 0x04, 0x05, 0x06] }

/-- The FIFO refinement invariant tying a transport state to the list of
pushed-but-unpopped bytes it holds, oldest first: the occupancy equals the
model length, which never exceeds the capacity; the read cursor is in
range and the write cursor at most the capacity; the cursors differ by the
occupancy modulo the capacity; the storage has full physical length and
holds the model bytes contiguously from the read cursor, modulo
wraparound. -/
def UartFifoInv (u : UART) (m : List Nat) : Prop :=
  u.rxQueueSize = m.length ∧
  m.length ≤ UART_RX_QUEUE_SIZE ∧
  u.rxQueueReadCursor < UART_RX_QUEUE_SIZE ∧
  u.rxQueueWriteCursor ≤ UART_RX_QUEUE_SIZE ∧
  u.rxQueueWriteCursor % UART_RX_QUEUE_SIZE =
    (u.rxQueueReadCursor + m.length) % UART_RX_QUEUE_SIZE ∧
  u.rxQueue.length = UART_RX_QUEUE_SIZE ∧
  ∀ i < m.length,
    u.rxQueue.getD ((u.rxQueueReadCursor + i) % UART_RX_QUEUE_SIZE) 0 =
      m.getD i 0

instance (u : UART) (m : List Nat) : Decidable (UartFifoInv u m) := by
  unfold UartFifoInv
  infer_instance

/-- Claim C1: encoding any command and 1-250 byte payload with
ProtocolSendPacket and decoding with ProtocolProcessPacket is claimed to
round-trip with status OK. Evaluating the code at the failing input,
command 0x01 with payload [0xAA]: the encoder emits the frame
[0x01, 0x03, 0xA8], placing the checksum in the slot of the last payload
byte, so the decoder recovers the command but reports status BAD and a
payload equal to the transmitted checksum, not the original byte. -/
theorem c1_roundtrip_eval :
    (protocolRoundTrip 0x01 [0xAA]).1.status = PROTOCOL_PACKET_STATUS_BAD ∧
    (protocolRoundTrip 0x01 [0xAA]).1.command = 0x01 ∧
    (protocolRoundTrip 0x01 [0xAA]).1.data = [0xA8] := by decide

/-- Claim C4: ProtocolSendPacket is claimed to transmit command, length,
every payload byte (or one zero byte) and then the checksum. Evaluating
the code: for command 0x01 and payload [0xAA, 0xBB] it transmits
[0x01, 0x04, 0xAA, 0x14], dropping the last payload byte 0xBB (the
checksum 0x14 = 01 XOR 04 XOR AA XOR BB occupies its slot), and for an
empty payload it transmits [0x05, 0x03, 0x06], the substituted zero byte
likewise overwritten by the checksum 05 XOR 03. -/
theorem c4_encoder_eval :
    ProtocolSendPacket 0x01 [0xAA, 0xBB] 2 = [0x01, 0x04, 0xAA, 0x14] ∧
    ProtocolSendPacket PROTOCOL_CMD_WRITE_DATA_RESPONSE_OK [] 0 =
      [0x05, 0x03, 0x06] := by decide

/-- Claim C2 counterexample: the claim states that the end-to-end scenario
writes exactly one dual-word at address 0x00000004; in fact the whole
flash trace of the call contains no dual-word write at address 4 at all
(both strides are consumed by the below-4 protection skip). -/
theorem c2_counterexample :
    ((ProtocolFlashWrite flashOK scenarioPacket).ops.countP
      (fun op => match op with
        | FlashOp.writeDW 4 _ _ => true
        | _ => false)) = 0 := by decide

/-- Claim C2, amended: on the WRITE_DATA packet with address bytes 00 00 00
and data bytes AA BB CC DD EE FF, the device performs the full erase-all
trace and nothing else in flash: the stride loop issues no dual-word write
and reads no payload byte, because the first skip advances the address
from 0 to 2 past bytes AA BB CC and the second from 2 to 4 past bytes
DD EE FF, exhausting the payload at cursor 9; the hardware result stays 1
and the response frame is WRITE_DATA_RESPONSE_OK, length 3, checksum
command XOR 3 - the zero padding byte having been overwritten by the
checksum. -/
theorem c2_scenario :
    (ProtocolFlashWrite flashOK scenarioPacket).ops = ProtocolFlashErase ∧
    (ProtocolFlashWrite flashOK scenarioPacket).reads = [] ∧
    (ProtocolFlashWrite flashOK scenarioPacket).final =
      { address := 4, index := 9, flashRes := 1 } ∧
    (ProtocolFlashWrite flashOK scenarioPacket).response =
      [PROTOCOL_CMD_WRITE_DATA_RESPONSE_OK, 3,
        PROTOCOL_CMD_WRITE_DATA_RESPONSE_OK ^^^ 3] := by decide

/-- Claim C9 counterexample: the claim states that for every packet with
dataSize >= 3 the stride loop reads only indices below dataSize; on the
packet with address 0x10 and dataSize 4 the single write stride reads
indices 3 through 8, of which 4 through 8 are out of bounds. -/
theorem c9_counterexample :
    ¬ (∀ r ∈ (ProtocolFlashWrite flashOK shortWritePacket).reads,
        r < shortWritePacket.dataSize) := by decide

/-- Claim C7 counterexample: provisioning twice with different payloads is
claimed to retain the first value and answer the second call with ERR;
starting from blank cells, provisioning first with payload 00 00 and then
with payload 01 02 answers the second call with WRITE_SN_RESPONSE_OK and
stores the second payload. -/
theorem c7_counterexample :
    (ProtocolWriteSerialNumber
        (ProtocolWriteSerialNumber ⟨0, 0⟩ snPacketZero).1 snPacketOneTwo).2 =
      ProtocolSendPacket PROTOCOL_CMD_WRITE_SN_RESPONSE_OK [] 0 ∧
    (ProtocolWriteSerialNumber
        (ProtocolWriteSerialNumber ⟨0, 0⟩ snPacketZero).1 snPacketOneTwo).1 =
      ⟨0x01, 0x02⟩ := by decide

/-- Claim C6: a transport holding fewer than 2 buffered bytes, or whose
occupancy differs from the peeked length byte, makes ProtocolProcessPacket
return status INCOMPLETE and leave the transport state - cursors,
occupancy and stored bytes - exactly as it was, so a later call can retry. -/
theorem c6_incomplete_stable (u : UART)
    (h : u.rxQueueSize < 2 ∨ u.rxQueueSize ≠ UARTGetOffsetByte u 1 % 256) :
    (ProtocolProcessPacket u).1.status = PROTOCOL_PACKET_STATUS_INCOMPLETE ∧
    (ProtocolProcessPacket u).2 = u := by
  unfold ProtocolProcessPacket
  rcases h with h | h
  · rw [if_neg (by omega)]
    exact ⟨rfl, rfl⟩
  · by_cases h2 : 2 ≤ u.rxQueueSize
    · rw [if_pos h2, if_neg h]
      exact ⟨rfl, rfl⟩
    · rw [if_neg h2]
      exact ⟨rfl, rfl⟩

/-- Witness for c6_incomplete_stable at the empty transport. -/
theorem c6_witness :
    (uartInit.rxQueueSize < 2 ∨
      uartInit.rxQueueSize ≠ UARTGetOffsetByte uartInit 1 % 256) ∧
    ((ProtocolProcessPacket uartInit).1.status =
        PROTOCOL_PACKET_STATUS_INCOMPLETE ∧
      (ProtocolProcessPacket uartInit).2 = uartInit) :=
  ⟨Or.inl (by decide), c6_incomplete_stable uartInit (Or.inl (by decide))⟩

set_option maxRecDepth 4096 in
/-- Claim C8 counterexample: cursors are claimed to stay within
[0, capacity) and pops to return only bytes actually written; after 256
accepted pushes the write cursor sits at 256 = capacity, outside
[0, capacity), and after 257 pushes of byte 7 (all accepted, occupancy
reaching capacity + 1 with the first slot overwritten) a 257th pop
returns 0, a byte never pushed. -/
theorem c8_counterexample :
    (uartPushList uartInit (List.replicate 256 7)).rxQueueWriteCursor =
      UART_RX_QUEUE_SIZE ∧
    (uartPopList (uartPushList uartInit (List.replicate 257 7)) 257).1.getLast?
      = some 0 := by decide

/-- Setting one slot and reading it back returns the stored value. -/
theorem list_getD_set_self : ∀ (l : List Nat) (i v : Nat), i < l.length →
    (l.set i v).getD i 0 = v := by
  intro l
  induction l with
  | nil => intro i v h; simp at h
  | cons a l ih =>
    intro i v h
    cases i with
    | zero => simp
    | succ i =>
      simp only [List.set, List.getD_cons_succ]
      exact ih i v (by simp only [List.length_cons] at h; omega)

/-- Setting one slot leaves every other slot unchanged. -/
theorem list_getD_set_other : ∀ (l : List Nat) (i j v : Nat), i ≠ j →
    (l.set i v).getD j 0 = l.getD j 0 := by
  intro l
  induction l with
  | nil => intro i j v h; simp [List.set]
  | cons a l ih =>
    intro i j v h
    cases i with
    | zero =>
      cases j with
      | zero => exact absurd rfl h
      | succ j => simp
    | succ i =>
      cases j with
      | zero => simp
      | succ j =>
        simp only [List.set, List.getD_cons_succ]
        exact ih i j v (fun hh => h (by rw [hh]))

/-- Reading an appended list at the old length returns the appended item. -/
theorem list_getD_append_len : ∀ (m : List Nat) (x : Nat),
    (m ++ [x]).getD m.length 0 = x := by
  intro m
  induction m with
  | nil => intro x; rfl
  | cons a m ih =>
    intro x
    simp only [List.cons_append, List.length_cons, List.getD_cons_succ]
    exact ih x

/-- Reading an appended list below the old length reads the old list. -/
theorem list_getD_append_lt : ∀ (m l2 : List Nat) (i : Nat), i < m.length →
    (m ++ l2).getD i 0 = m.getD i 0 := by
  intro m
  induction m with
  | nil => intro l2 i h; simp at h
  | cons a m ih =>
    intro l2 i h
    cases i with
    | zero => rfl
    | succ i =>
      simp only [List.cons_append, List.getD_cons_succ]
      exact ih l2 i (by simp only [List.length_cons] at h; omega)

/-- One transport action preserves the occupancy and cursor bounds. -/
theorem uartStep_bounds (u : UART) (op : Option Nat)
    (h1 : u.rxQueueSize ≤ UART_RX_QUEUE_SIZE + 1)
    (h2 : u.rxQueueReadCursor < UART_RX_QUEUE_SIZE)
    (h3 : u.rxQueueWriteCursor ≤ UART_RX_QUEUE_SIZE) :
    (uartStep u op).rxQueueSize ≤ UART_RX_QUEUE_SIZE + 1 ∧
    (uartStep u op).rxQueueReadCursor < UART_RX_QUEUE_SIZE ∧
    (uartStep u op).rxQueueWriteCursor ≤ UART_RX_QUEUE_SIZE := by
  cases op with
  | some b =>
    simp only [uartStep, UARTReadDataByte, UART_RX_QUEUE_SIZE] at *
    split
    · dsimp only
      refine ⟨by omega, h2, ?_⟩
      split <;> omega
    · exact ⟨h1, h2, h3⟩
  | none =>
    simp only [uartStep, UARTGetNextByte, UART_RX_QUEUE_SIZE] at *
    refine ⟨?_, ?_, h3⟩
    · split <;> omega
    · split <;> omega

/-- Every interleaving of accepted pushes and pops keeps the bounds. -/
theorem uartApplyOps_bounds : ∀ (ops : List (Option Nat)) (u : UART),
    u.rxQueueSize ≤ UART_RX_QUEUE_SIZE + 1 →
    u.rxQueueReadCursor < UART_RX_QUEUE_SIZE →
    u.rxQueueWriteCursor ≤ UART_RX_QUEUE_SIZE →
    (uartApplyOps u ops).rxQueueSize ≤ UART_RX_QUEUE_SIZE + 1 ∧
    (uartApplyOps u ops).rxQueueReadCursor < UART_RX_QUEUE_SIZE ∧
    (uartApplyOps u ops).rxQueueWriteCursor ≤ UART_RX_QUEUE_SIZE := by
  intro ops
  induction ops with
  | nil => intro u h1 h2 h3; exact ⟨h1, h2, h3⟩
  | cons op ops ih =>
    intro u h1 h2 h3
    obtain ⟨g1, g2, g3⟩ := uartStep_bounds u op h1 h2 h3
    exact ih (uartStep u op) g1 g2 g3

/-- An accepted push below capacity appends the stored byte to the FIFO
abstraction. -/
theorem uartFifo_push (u : UART) (m : List Nat) (b : Nat)
    (hinv : UartFifoInv u m) (hlen : m.length < UART_RX_QUEUE_SIZE) :
    UartFifoInv (UARTReadDataByte u b) (m ++ [b % 256]) := by
  unfold UartFifoInv at hinv ⊢
  unfold UARTReadDataByte
  simp only [UART_RX_QUEUE_SIZE] at *
  obtain ⟨hsz, hml, hrc, hwc, hmod, hql, hcont⟩ := hinv
  have hne : u.rxQueueSize ≠ 256 + 1 := by omega
  rw [if_pos hne]
  have hw0 : (if u.rxQueueWriteCursor = 256 then 0 else u.rxQueueWriteCursor)
      = (u.rxQueueReadCursor + m.length) % 256 := by
    split <;> omega
  simp only [hw0, List.length_append, List.length_set, List.length_singleton]
  refine ⟨by omega, by omega, hrc, by omega, by omega, hql, ?_⟩
  intro i hi
  rcases Nat.lt_or_ge i m.length with hilt | hige
  · have hne2 : (u.rxQueueReadCursor + m.length) % 256 ≠
        (u.rxQueueReadCursor + i) % 256 := by omega
    rw [list_getD_set_other _ _ _ _ hne2, list_getD_append_lt _ _ _ hilt]
    exact hcont i hilt
  · have hieq : i = m.length := by omega
    subst hieq
    rw [list_getD_set_self _ _ _ (by omega), list_getD_append_len]

/-- A pop from a non-empty FIFO abstraction returns the oldest pushed byte
and leaves the abstraction of the rest. -/
theorem uartFifo_pop (u : UART) (b : Nat) (ms : List Nat)
    (hinv : UartFifoInv u (b :: ms)) :
    (UARTGetNextByte u).1 = b ∧ UartFifoInv (UARTGetNextByte u).2 ms := by
  unfold UartFifoInv at hinv ⊢
  unfold UARTGetNextByte
  simp only [UART_RX_QUEUE_SIZE] at *
  obtain ⟨hsz, hml, hrc, hwc, hmod, hql, hcont⟩ := hinv
  simp only [List.length_cons] at hsz hml hmod hcont
  have hhead := hcont 0 (by omega)
  have hrc0 : (u.rxQueueReadCursor + 0) % 256 = u.rxQueueReadCursor := by
    omega
  rw [hrc0] at hhead
  simp only [List.getD_cons_zero] at hhead
  have hszpos : u.rxQueueSize > 0 := by omega
  have hrc1 : (if u.rxQueueReadCursor + 1 ≥ 256 then 0
      else u.rxQueueReadCursor + 1) = (u.rxQueueReadCursor + 1) % 256 := by
    split <;> omega
  simp only [hrc1, if_pos hszpos, List.length_set]
  refine ⟨hhead, by omega, by omega, by omega, hwc, by omega, hql, ?_⟩
  intro i hi
  have hne2 : u.rxQueueReadCursor ≠
      ((u.rxQueueReadCursor + 1) % 256 + i) % 256 := by omega
  rw [list_getD_set_other _ _ _ _ hne2]
  have harith : ((u.rxQueueReadCursor + 1) % 256 + i) % 256 =
      (u.rxQueueReadCursor + (i + 1)) % 256 := by omega
  rw [harith]
  have hstep := hcont (i + 1) (by omega)
  rw [hstep]
  simp

/-- Claim C8, amended: across every interleaving of accepted pushes
(UARTReadData) and pops (UARTGetNextByte) from a fresh transport, the
occupancy stays within 0 <= size <= capacity + 1 and the read cursor
within [0, capacity), while the write cursor stays within [0, capacity] -
it reaches capacity transiently after a push into the last slot and is
wrapped to 0 before its next use, so the claimed bound [0, capacity) fails
only for that stored intermediate value; and as long as the occupancy is
below capacity when a byte arrives, the buffer refines a FIFO queue: a
push appends the stored byte and a pop returns exactly the oldest
unconsumed pushed byte. (At occupancy = capacity a further byte is still
accepted and overwrites the oldest unread slot, which is how a pop can
later return a never-written byte.) -/
theorem c8_fifo :
    (∀ ops : List (Option Nat),
      (uartApplyOps uartInit ops).rxQueueSize ≤ UART_RX_QUEUE_SIZE + 1 ∧
      (uartApplyOps uartInit ops).rxQueueReadCursor < UART_RX_QUEUE_SIZE ∧
      (uartApplyOps uartInit ops).rxQueueWriteCursor ≤ UART_RX_QUEUE_SIZE) ∧
    (∀ (u : UART) (m : List Nat) (b : Nat), UartFifoInv u m →
      m.length < UART_RX_QUEUE_SIZE →
      UartFifoInv (UARTReadDataByte u b) (m ++ [b % 256])) ∧
    (∀ (u : UART) (b : Nat) (ms : List Nat), UartFifoInv u (b :: ms) →
      (UARTGetNextByte u).1 = b ∧ UartFifoInv (UARTGetNextByte u).2 ms) :=
  ⟨fun ops => uartApplyOps_bounds ops uartInit (by decide) (by decide)
      (by decide),
   fun u m b hinv hlen => uartFifo_push u m b hinv hlen,
   fun u b ms hinv => uartFifo_pop u b ms hinv⟩

set_option maxRecDepth 4096 in
/-- Witness for c8_fifo: the invariant holds concretely after pushing byte
5 into the fresh transport, and popping returns that byte. -/
theorem c8_witness :
    UartFifoInv (UARTReadDataByte uartInit 5) [5] ∧
    ((UARTGetNextByte (UARTReadDataByte uartInit 5)).1 = 5 ∧
      UartFifoInv (UARTGetNextByte (UARTReadDataByte uartInit 5)).2 []) :=
  ⟨by decide, c8_fifo.2.2 (UARTReadDataByte uartInit 5) 5 [] (by decide)⟩

/-- Claim C3: a stride of ProtocolFlashWrite whose destination address lies
inside [BOOTLOADER_BOOTLOADER_START, BOOTLOADER_APPLICATION_START) or
below 4 issues no flash operation and reads no payload byte - replaying
its (empty) trace leaves any memory unchanged - and only advances the
address by 2 and the cursor by 3, leaving the hardware result untouched,
so the request is skipped silently rather than failed; moreover every
dual-word write the stride loop ever issues has its destination outside
that protected set. -/
theorem c3_protected_skip :
    (∀ (data : List Nat) (fw : Nat → Nat → Nat → Nat) (s : FlashWriteState),
      (BOOTLOADER_BOOTLOADER_START ≤ s.address ∧
        s.address < BOOTLOADER_APPLICATION_START) ∨ s.address < 4 →
      ProtocolFlashWriteStep data fw s =
        ({ address := (s.address + 2) % 2 ^ 32, index := (s.index + 3) % 256,
           flashRes := s.flashRes }, [], []) ∧
      (∀ m : Nat → Nat,
        applyFlashTrace m (ProtocolFlashWriteStep data fw s).2.1 = m)) ∧
    (∀ (data : List Nat) (dataSize : Nat) (fw : Nat → Nat → Nat → Nat)
        (fuel : Nat) (s : FlashWriteState) (a d d2 : Nat),
      FlashOp.writeDW a d d2 ∈
        (ProtocolFlashWriteLoop data dataSize fw fuel s).2.1 →
      ¬ ((BOOTLOADER_BOOTLOADER_START ≤ a ∧
          a < BOOTLOADER_APPLICATION_START) ∨ a < 4)) := by
  constructor
  · intro data fw s h
    have hstep : ProtocolFlashWriteStep data fw s =
        ({ address := (s.address + 2) % 2 ^ 32, index := (s.index + 3) % 256,
           flashRes := s.flashRes }, [], []) := by
      unfold ProtocolFlashWriteStep
      rw [if_pos h]
    refine ⟨hstep, fun m => ?_⟩
    rw [hstep]
    rfl
  · intro data dataSize fw fuel
    induction fuel with
    | zero =>
      intro s a d d2 h
      simp only [ProtocolFlashWriteLoop, List.not_mem_nil] at h
    | succ fuel ih =>
      intro s a d d2 h
      simp only [ProtocolFlashWriteLoop] at h
      by_cases hg : s.index < dataSize ∧ s.flashRes = 1
      · rw [if_pos hg] at h
        simp only [List.mem_append] at h
        rcases h with h | h
        · by_cases hp : (BOOTLOADER_BOOTLOADER_START ≤ s.address ∧
              s.address < BOOTLOADER_APPLICATION_START) ∨ s.address < 4
          · unfold ProtocolFlashWriteStep at h
            rw [if_pos hp] at h
            simp at h
          · unfold ProtocolFlashWriteStep at h
            rw [if_neg hp] at h
            simp only [List.mem_singleton, FlashOp.writeDW.injEq] at h
            obtain ⟨ha, -, -⟩ := h
            subst ha
            exact hp
        · exact ih _ a d d2 h
      · rw [if_neg hg] at h
        simp at h

/-- Witness for c3_protected_skip: the initial stride of a write request
addressed at 0 is skipped. -/
theorem c3_witness :
    (((BOOTLOADER_BOOTLOADER_START ≤ 0 ∧
        0 < BOOTLOADER_APPLICATION_START) ∨ 0 < 4) ∧
      ProtocolFlashWriteStep [] flashOK
          { address := 0, index := 3, flashRes := 1 } =
        ({ address := (0 + 2) % 2 ^ 32, index := (3 + 3) % 256,
           flashRes := 1 }, [], [])) :=
  ⟨Or.inr (by decide),
    (c3_protected_skip.1 [] flashOK { address := 0, index := 3, flashRes := 1 }
      (Or.inr (by decide))).1⟩

/-- Every payload index the stride loop reads is below dataSize + 5: a
write stride starting at cursor i with i < dataSize reads i through
i + 5. -/
theorem flashWriteLoop_reads_lt (data : List Nat) (dataSize : Nat)
    (fw : Nat → Nat → Nat → Nat) : ∀ (fuel : Nat) (s : FlashWriteState),
    ∀ r ∈ (ProtocolFlashWriteLoop data dataSize fw fuel s).2.2,
      r < dataSize + 5 := by
  intro fuel
  induction fuel with
  | zero =>
    intro s r h
    simp only [ProtocolFlashWriteLoop, List.not_mem_nil] at h
  | succ fuel ih =>
    intro s r h
    simp only [ProtocolFlashWriteLoop] at h
    by_cases hg : s.index < dataSize ∧ s.flashRes = 1
    · rw [if_pos hg] at h
      simp only [List.mem_append] at h
      rcases h with h | h
      · obtain ⟨hi, -⟩ := hg
        by_cases hp : (BOOTLOADER_BOOTLOADER_START ≤ s.address ∧
            s.address < BOOTLOADER_APPLICATION_START) ∨ s.address < 4
        · unfold ProtocolFlashWriteStep at h
          rw [if_pos hp] at h
          simp at h
        · unfold ProtocolFlashWriteStep at h
          rw [if_neg hp] at h
          simp only [List.mem_cons, List.not_mem_nil, or_false] at h
          rcases h with rfl | rfl | rfl | rfl | rfl | rfl <;> omega
      · exact ih _ r h
    · rw [if_neg hg] at h
      simp at h

/-- Claim C9, amended: for every packet with dataSize at least 3, every
payload index the stride loop of ProtocolFlashWrite reads is strictly
below dataSize + 5; the claimed bound of dataSize itself fails, since a
write stride beginning at cursor dataSize - 1 reads five bytes past the
declared payload (skip strides read nothing). -/
theorem c9_reads_bounded (fw : Nat → Nat → Nat → Nat)
    (packet : ProtocolPacket) (_h3 : 3 ≤ packet.dataSize) :
    ∀ r ∈ (ProtocolFlashWrite fw packet).reads, r < packet.dataSize + 5 := by
  intro r hr
  exact flashWriteLoop_reads_lt packet.data packet.dataSize fw 1024 _ r hr

/-- Witness for c9_reads_bounded on a full write packet. -/
theorem c9_witness :
    3 ≤ fullWritePacket.dataSize ∧
    3 ∈ (ProtocolFlashWrite flashOK fullWritePacket).reads ∧
    3 < fullWritePacket.dataSize + 5 :=
  ⟨by decide, by decide,
    c9_reads_bounded flashOK fullWritePacket (by decide) 3 (by decide)⟩

/-- A flash trace whose operations all live at address 1 or above leaves
the word at address zero unchanged. -/
theorem applyFlashTrace_untouched_zero :
    ∀ (l : List FlashOp) (m : Nat → Nat),
      (∀ op ∈ l, 1 ≤ flashOpAddress op) →
      applyFlashTrace m l 0 = m 0 := by
  intro l
  induction l with
  | nil => intro m _; rfl
  | cons op l ih =>
    intro m h
    have hop := h op (List.mem_cons_self op l)
    have hrest := fun o ho => h o (List.mem_cons_of_mem op ho)
    show applyFlashTrace (applyFlashOp m op) l 0 = m 0
    rw [ih _ hrest]
    cases op with
    | erasePage p =>
      simp only [flashOpAddress] at hop
      simp only [applyFlashOp]
      rw [if_neg (by omega)]
    | writeDW p d d2 =>
      simp only [flashOpAddress] at hop
      simp only [applyFlashOp]
      rw [if_neg (by omega), if_neg (by omega)]

/-- Claim C5: after the erase-all trace of ProtocolFlashErase is replayed
over any initial memory, address 0 holds the bootloader-entry instruction
0x40000 + BOOTLOADER_BOOTLOADER_START - never the erased value - and every
page erase in the trace lies on a page disjoint from
[BOOTLOADER_BOOTLOADER_START, BOOTLOADER_APPLICATION_START): pages
overlapping the bootloader region are skipped. -/
theorem c5_erase_safety :
    (∀ m : Nat → Nat,
      applyFlashTrace m ProtocolFlashErase 0 = resetInstruction) ∧
    resetInstruction ≠ FLASH_ERASED_WORD ∧
    (∀ op ∈ ProtocolFlashErase, flashOpIsErase op = true →
      flashOpAddress op + FLASH_PAGE_SIZE ≤ BOOTLOADER_BOOTLOADER_START ∨
      BOOTLOADER_APPLICATION_START ≤ flashOpAddress op) := by
  refine ⟨?_, by decide, by decide⟩
  intro m
  show applyFlashTrace
    (applyFlashOp (applyFlashOp m (FlashOp.erasePage 0))
      (FlashOp.writeDW 0 resetInstruction 0))
    (ProtocolFlashEraseLoop 64 FLASH_PAGE_SIZE) 0 = resetInstruction
  rw [applyFlashTrace_untouched_zero _ _ (by decide)]
  simp [applyFlashOp]

/-- Witness for c5_erase_safety at the first swept page. -/
theorem c5_witness :
    (FlashOp.erasePage 1024 ∈ ProtocolFlashErase ∧
      flashOpIsErase (FlashOp.erasePage 1024) = true) ∧
    (flashOpAddress (FlashOp.erasePage 1024) + FLASH_PAGE_SIZE ≤
        BOOTLOADER_BOOTLOADER_START ∨
      BOOTLOADER_APPLICATION_START ≤
        flashOpAddress (FlashOp.erasePage 1024)) :=
  ⟨⟨by decide, by decide⟩,
    c5_erase_safety.2.2 (FlashOp.erasePage 1024) (by decide) (by decide)⟩

/-- A bitwise or of naturals is zero exactly when both arguments are. -/
theorem nat_lor_eq_zero {x y : Nat} (h : x ||| y = 0) : x = 0 ∧ y = 0 := by
  constructor
  · apply Nat.eq_of_testBit_eq
    intro i
    have h2 := congrArg (fun n => Nat.testBit n i) h
    simp only [Nat.testBit_lor, Nat.zero_testBit, Bool.or_eq_false_iff] at h2
    simp [h2.1]
  · apply Nat.eq_of_testBit_eq
    intro i
    have h2 := congrArg (fun n => Nat.testBit n i) h
    simp only [Nat.testBit_lor, Nat.zero_testBit, Bool.or_eq_false_iff] at h2
    simp [h2.2]

/-- Masking a byte-sized value with 0xFF is the identity. -/
theorem nat_land_mask (b : Nat) (hb : b < 256) : b &&& 255 = b := by
  apply Nat.eq_of_testBit_eq
  intro i
  rw [Nat.testBit_land]
  by_cases hi : i < 8
  · have hmask : Nat.testBit 255 i = true := by
      interval_cases i <;> decide
    simp [hmask]
  · have hbi : Nat.testBit b i = false := by
      apply Nat.testBit_eq_false_of_lt
      calc b < 256 := hb
        _ ≤ 2 ^ i := by
          have h8 : 8 ≤ i := by omega
          calc (256 : Nat) = 2 ^ 8 := by norm_num
            _ ≤ 2 ^ i := Nat.pow_le_pow_right (by norm_num) h8
    simp [hbi]

/-- The stored 16-bit serial number is zero exactly when both cells read
zero. -/
theorem EEPROMSerial_zero_iff (a b : Nat) :
    EEPROMSerial { sn_msb := a, sn_lsb := b } = 0 ↔
      (a % 256 = 0 ∧ b % 256 = 0) := by
  show ((a % 256) <<< 8) ||| ((b % 256) &&& 255) = 0 ↔ _
  constructor
  · intro h
    obtain ⟨h1, h2⟩ := nat_lor_eq_zero h
    rw [Nat.shiftLeft_eq] at h1
    rw [nat_land_mask _ (by omega)] at h2
    exact ⟨by omega, h2⟩
  · intro ⟨h1, h2⟩
    rw [h1, h2]
    decide

/-- Claim C7, amended: when the stored 16-bit serial number is zero,
ProtocolWriteSerialNumber stores the first two payload bytes and answers
WRITE_SN_RESPONSE_OK; when it is nonzero it leaves both cells unchanged
and answers WRITE_SN_RESPONSE_ERR. Consequently, provisioning twice with
different payloads retains the first payload and has the second call
answered with ERR, provided the first payload bytes are not both zero -
the proviso the counterexample forces, since a first payload of 00 00
leaves the serial number zero and the second call succeeds. -/
theorem c7_provisioning :
    (∀ (e : EEPROM) (p : ProtocolPacket), EEPROMSerial e = 0 →
      ProtocolWriteSerialNumber e p =
        ({ sn_msb := p.data.getD 0 0 % 256, sn_lsb := p.data.getD 1 0 % 256 },
          ProtocolSendPacket PROTOCOL_CMD_WRITE_SN_RESPONSE_OK [] 0)) ∧
    (∀ (e : EEPROM) (p : ProtocolPacket), EEPROMSerial e ≠ 0 →
      ProtocolWriteSerialNumber e p =
        (e, ProtocolSendPacket PROTOCOL_CMD_WRITE_SN_RESPONSE_ERR [] 0)) ∧
    (∀ (e : EEPROM) (p1 p2 : ProtocolPacket), EEPROMSerial e = 0 →
      ¬ (p1.data.getD 0 0 % 256 = 0 ∧ p1.data.getD 1 0 % 256 = 0) →
      (ProtocolWriteSerialNumber e p1).1 =
        { sn_msb := p1.data.getD 0 0 % 256,
          sn_lsb := p1.data.getD 1 0 % 256 } ∧
      (ProtocolWriteSerialNumber (ProtocolWriteSerialNumber e p1).1 p2).1 =
        (ProtocolWriteSerialNumber e p1).1 ∧
      (ProtocolWriteSerialNumber (ProtocolWriteSerialNumber e p1).1 p2).2 =
        ProtocolSendPacket PROTOCOL_CMD_WRITE_SN_RESPONSE_ERR [] 0) := by
  have hzero : ∀ (e : EEPROM) (p : ProtocolPacket), EEPROMSerial e = 0 →
      ProtocolWriteSerialNumber e p =
        ({ sn_msb := p.data.getD 0 0 % 256, sn_lsb := p.data.getD 1 0 % 256 },
          ProtocolSendPacket PROTOCOL_CMD_WRITE_SN_RESPONSE_OK [] 0) := by
    intro e p h
    unfold ProtocolWriteSerialNumber
    rw [if_pos h]
  have hnonzero : ∀ (e : EEPROM) (p : ProtocolPacket), EEPROMSerial e ≠ 0 →
      ProtocolWriteSerialNumber e p =
        (e, ProtocolSendPacket PROTOCOL_CMD_WRITE_SN_RESPONSE_ERR [] 0) := by
    intro e p h
    unfold ProtocolWriteSerialNumber
    rw [if_neg h]
  refine ⟨hzero, hnonzero, ?_⟩
  intro e p1 p2 h0 hnz
  have h1 := hzero e p1 h0
  have he1 : (ProtocolWriteSerialNumber e p1).1 =
      { sn_msb := p1.data.getD 0 0 % 256, sn_lsb := p1.data.getD 1 0 % 256 } :=
    by rw [h1]
  have hs1 : EEPROMSerial (ProtocolWriteSerialNumber e p1).1 ≠ 0 := by
    rw [he1]
    intro hcontra
    obtain ⟨hx, hy⟩ := (EEPROMSerial_zero_iff _ _).1 hcontra
    exact hnz ⟨by omega, by omega⟩
  have h2 := hnonzero (ProtocolWriteSerialNumber e p1).1 p2 hs1
  exact ⟨he1, by rw [h2], by rw [h2]⟩

/-- Witness for c7_provisioning: blank cells, first payload 03 04, second
payload 05 06; the first value is retained and the second call answers
ERR. -/
theorem c7_witness :
    (EEPROMSerial { sn_msb := 0, sn_lsb := 0 } = 0 ∧
      ¬ (snPacketThreeFour.data.getD 0 0 % 256 = 0 ∧
        snPacketThreeFour.data.getD 1 0 % 256 = 0)) ∧
    ((ProtocolWriteSerialNumber { sn_msb := 0, sn_lsb := 0 }
        snPacketThreeFour).1 =
      { sn_msb := snPacketThreeFour.data.getD 0 0 % 256,
        sn_lsb := snPacketThreeFour.data.getD 1 0 % 256 } ∧
    (ProtocolWriteSerialNumber
        (ProtocolWriteSerialNumber { sn_msb := 0, sn_lsb := 0 }
          snPacketThreeFour).1 snPacketFiveSix).1 =
      (ProtocolWriteSerialNumber { sn_msb := 0, sn_lsb := 0 }
        snPacketThreeFour).1 ∧
    (ProtocolWriteSerialNumber
        (ProtocolWriteSerialNumber { sn_msb := 0, sn_lsb := 0 }
          snPacketThreeFour).1 snPacketFiveSix).2 =
      ProtocolSendPacket PROTOCOL_CMD_WRITE_SN_RESPONSE_ERR [] 0) :=
  ⟨⟨by decide, by decide⟩,
    c7_provisioning.2.2 { sn_msb := 0, sn_lsb := 0 } snPacketThreeFour
      snPacketFiveSix (by decide) (by decide)⟩

/-- Claim C10: when both EEPROM serial cells read zero and the provisioning
payload bytes are both 00, ProtocolWriteSerialNumber answers
WRITE_SN_RESPONSE_OK yet the stored serial number remains zero, so any
subsequent provisioning call again takes the write path: it answers OK and
stores its own payload bytes instead of being refused. -/
theorem c10_zero_serial_reprovision (e : EEPROM) (p : ProtocolPacket)
    (h0 : EEPROMSerial e = 0)
    (hb0 : p.data.getD 0 0 % 256 = 0) (hb1 : p.data.getD 1 0 % 256 = 0) :
    (ProtocolWriteSerialNumber e p).2 =
      ProtocolSendPacket PROTOCOL_CMD_WRITE_SN_RESPONSE_OK [] 0 ∧
    EEPROMSerial (ProtocolWriteSerialNumber e p).1 = 0 ∧
    ∀ p2 : ProtocolPacket,
      (ProtocolWriteSerialNumber (ProtocolWriteSerialNumber e p).1 p2).2 =
        ProtocolSendPacket PROTOCOL_CMD_WRITE_SN_RESPONSE_OK [] 0 ∧
      (ProtocolWriteSerialNumber (ProtocolWriteSerialNumber e p).1 p2).1 =
        { sn_msb := p2.data.getD 0 0 % 256,
          sn_lsb := p2.data.getD 1 0 % 256 } := by
  have hzero : ∀ (e2 : EEPROM) (pp : ProtocolPacket), EEPROMSerial e2 = 0 →
      ProtocolWriteSerialNumber e2 pp =
        ({ sn_msb := pp.data.getD 0 0 % 256,
           sn_lsb := pp.data.getD 1 0 % 256 },
          ProtocolSendPacket PROTOCOL_CMD_WRITE_SN_RESPONSE_OK [] 0) := by
    intro e2 pp h
    unfold ProtocolWriteSerialNumber
    rw [if_pos h]
  have h1 := hzero e p h0
  have he1 : (ProtocolWriteSerialNumber e p).1 =
      { sn_msb := 0, sn_lsb := 0 } := by
    rw [h1, hb0, hb1]
  have hs1 : EEPROMSerial (ProtocolWriteSerialNumber e p).1 = 0 := by
    rw [he1]
    decide
  refine ⟨by rw [h1], hs1, ?_⟩
  intro p2
  have h2 := hzero (ProtocolWriteSerialNumber e p).1 p2 hs1
  exact ⟨by rw [h2], by rw [h2]⟩

/-- Witness for c10_zero_serial_reprovision: blank cells and the 00 00
payload, followed by the 01 02 payload, which is accepted. -/
theorem c10_witness :
    (EEPROMSerial { sn_msb := 0, sn_lsb := 0 } = 0 ∧
      snPacketZero.data.getD 0 0 % 256 = 0 ∧
      snPacketZero.data.getD 1 0 % 256 = 0) ∧
    ((ProtocolWriteSerialNumber
        (ProtocolWriteSerialNumber { sn_msb := 0, sn_lsb := 0 }
          snPacketZero).1 snPacketOneTwo).2 =
      ProtocolSendPacket PROTOCOL_CMD_WRITE_SN_RESPONSE_OK [] 0 ∧
    (ProtocolWriteSerialNumber
        (ProtocolWriteSerialNumber { sn_msb := 0, sn_lsb := 0 }
          snPacketZero).1 snPacketOneTwo).1 =
      { sn_msb := snPacketOneTwo.data.getD 0 0 % 256,
        sn_lsb := snPacketOneTwo.data.getD 1 0 % 256 }) :=
  ⟨⟨by decide, by decide, by decide⟩,
    (c10_zero_serial_reprovision { sn_msb := 0, sn_lsb := 0 } snPacketZero
      (by decide) (by decide) (by decide)).2.2 snPacketOneTwo⟩
